import Mathlib

/-!
# Verification of the CDP client in `scripts/cdp.js`

A shallow embedding of the minimal Chrome-DevTools-Protocol client.  Pure
string manipulation (secret redaction, URL handling) is translated to
executable functions over `List Char` / `String`; the stateful `CDP` class is
translated to a step function on an explicit state record, with promise
settlements, socket writes and handler invocations reified as an output list;
`connect`, which performs network I/O, is translated to a function
parameterized by an oracle describing the environment's DNS/fetch/WebSocket
answers, returning the trace of network operations next to the result.

JavaScript runtime primitives (JSON.parse, `new URL`, DNS, fetch, WebSocket,
timers) are not repository code; they are modelled by their observable
outcomes (an unparseable frame is an input of shape `none`, timers fire as
explicit events, network answers come from the oracle).
-/

/-! ## Character classes used by the redaction regexes -/

/-- The regex class `\s` restricted to its ASCII members (space, tab, newline,
carriage return, vertical tab, form feed).  The Unicode space members of `\s`
are not modelled. -/
def isWsCharJS (c : Char) : Bool :=
  c = ' ' || c = '\t' || c = '\n' || c = '\r' || c = '\x0B' || c = '\x0C'

/-- A character ending a `[^&\s]+` run in the redaction regexes of
`redactSecrets` (cdp.js lines 140-141). -/
def stopChar (c : Char) : Bool := c = '&' || isWsCharJS c

/-- Case-insensitive literal match: does `l` start with the (lowercase)
pattern `p`?  Models the `i` flag of the redaction regexes. -/
def ciMatches : List Char → List Char → Bool
  | [], _ => true
  | _ :: _, [] => false
  | p :: ps, c :: cs => (c.toLower = p) && ciMatches ps cs

/-- The literal `token=` (6 characters). -/
def tokLit : List Char := ['t', 'o', 'k', 'e', 'n', '=']

/-- The literal `access` (6 characters). -/
def accessLit : List Char := ['a', 'c', 'c', 'e', 's', 's']

/-- The literal `authorization:` (14 characters). -/
def authLit : List Char :=
  ['a', 'u', 't', 'h', 'o', 'r', 'i', 'z', 'a', 't', 'i', 'o', 'n', ':']

/-- The replacement `***`. -/
def stars : List Char := ['*', '*', '*']

/-- Does `/(token=)[^&\s]+/i` match at the head of `l`?  The `[^&\s]+` part
requires at least one non-delimiter character after `token=`. -/
def tokTrig (l : List Char) : Bool :=
  ciMatches tokLit l &&
    (match l.drop 6 with
     | c :: _ => !stopChar c
     | [] => false)

/-- One global pass of `.replace(/(token=)[^&\\s]+/gi, "$1***")`
(cdp.js line 140), with explicit fuel for structural termination: scan left to
right; at a match, keep the matched `token=` characters, emit `***` for the
secret run, resume after it.  Each step consumes at least one character, so
fuel equal to the list length (as passed by `redactTok`) never runs out. -/
def redactTokF : Nat → List Char → List Char
  | 0, l => l
  | _ + 1, [] => []
  | fuel + 1, c :: rest =>
    if tokTrig (c :: rest) then
      (c :: rest).take 6 ++ stars ++
        redactTokF fuel (((c :: rest).drop 6).dropWhile (fun x => !stopChar x))
    else
      c :: redactTokF fuel rest

/-- The `token=` replacement pass at adequate fuel. -/
def redactTok (l : List Char) : List Char := redactTokF l.length l

/-- Length of a case-insensitive match of `access[_-]?token=` at the head of
`l`, if any (12 without the separator, 13 with `_` or `-`). -/
def accMatchLen (l : List Char) : Option Nat :=
  if ciMatches accessLit l then
    match l.drop 6 with
    | c :: r1 =>
      if c = '_' || c = '-' then
        if ciMatches tokLit r1 then some 13 else none
      else if ciMatches tokLit (c :: r1) then some 12 else none
    | [] => none
  else none

/-- Does `/(access[_-]?token=)[^&\s]+/i` match at the head of `l`? -/
def accTrig (l : List Char) : Bool :=
  match accMatchLen l with
  | some n =>
    match l.drop n with
    | c :: _ => !stopChar c
    | [] => false
  | none => false

/-- Number of characters kept verbatim at an `access[_-]?token=` match. -/
def accLen (l : List Char) : Nat := (accMatchLen l).getD 0

/-- One global pass of `.replace(/(access[_-]?token=)[^&\\s]+/gi, "$1***")`
(cdp.js line 141), with explicit fuel for structural termination (see
`redactTokF`). -/
def redactAccF : Nat → List Char → List Char
  | 0, l => l
  | _ + 1, [] => []
  | fuel + 1, c :: rest =>
    if accTrig (c :: rest) then
      (c :: rest).take (accLen (c :: rest)) ++ stars ++
        redactAccF fuel (((c :: rest).drop (accLen (c :: rest))).dropWhile (fun x => !stopChar x))
    else
      c :: redactAccF fuel rest

/-- The `access[_-]?token=` replacement pass at adequate fuel. -/
def redactAcc (l : List Char) : List Char := redactAccF l.length l

/-- Does `/(authorization:)\s*\S+/i` match at the head of `l`?  The `\S+` part
requires at least one non-whitespace character after the optional spaces. -/
def authTrig (l : List Char) : Bool :=
  ciMatches authLit l &&
    (match (l.drop 14).dropWhile isWsCharJS with
     | _ :: _ => true
     | [] => false)

/-- One global pass of `.replace(/(authorization:)\\s*\\S+/gi, "$1 ***")`
(cdp.js line 142), with explicit fuel for structural termination (see
`redactTokF`): the matched spaces and the non-space run are replaced by a
single space and `***`. -/
def redactAuthF : Nat → List Char → List Char
  | 0, l => l
  | _ + 1, [] => []
  | fuel + 1, c :: rest =>
    if authTrig (c :: rest) then
      (c :: rest).take 14 ++ (' ' :: stars) ++
        redactAuthF fuel ((((c :: rest).drop 14).dropWhile isWsCharJS).dropWhile
          (fun x => !isWsCharJS x))
    else
      c :: redactAuthF fuel rest

/-- The `authorization:` replacement pass at adequate fuel. -/
def redactAuth (l : List Char) : List Char := redactAuthF l.length l

/-- `redactSecrets` (cdp.js lines 137-143): empty input maps to `""`,
otherwise the three global regex replacements are applied in source order. -/
def redactSecrets (text : String) : String :=
  if text = "" then ""
  else String.mk (redactAuth (redactAcc (redactTok text.data)))

/-- No position strictly inside `a` (each suffix of `a`, continued by `tail`)
matches the `token=` trigger. -/
def cleanBeforeTok : List Char → List Char → Bool
  | [], _ => true
  | c :: rest, tail => !tokTrig (c :: (rest ++ tail)) && cleanBeforeTok rest tail

/-- No position of `l` matches the `token=` trigger. -/
def noTokTrig : List Char → Bool
  | [] => true
  | c :: rest => !tokTrig (c :: rest) && noTokTrig rest

/-- No position of `l` matches the `access[_-]?token=` trigger. -/
def noAccTrig : List Char → Bool
  | [] => true
  | c :: rest => !accTrig (c :: rest) && noAccTrig rest

/-- No position strictly inside `a` (continued by `tail`) matches the
`authorization:` trigger. -/
def cleanBeforeAuth : List Char → List Char → Bool
  | [], _ => true
  | c :: rest, tail => !authTrig (c :: (rest ++ tail)) && cleanBeforeAuth rest tail

/-- No position of `l` matches the `authorization:` trigger. -/
def noAuthTrig : List Char → Bool
  | [] => true
  | c :: rest => !authTrig (c :: rest) && noAuthTrig rest

/-! ## URL model

A simplified model of the WHATWG `URL` class restricted to the
`scheme://host/path?query` shapes this client deals with: userinfo, ports
(beyond splitting `hostname` at `:`), fragments-in-output and scheme/host
lowercasing are not modelled.  Parsing fails exactly when there is no
`://` separator, the scheme is not `[a-zA-Z][a-zA-Z0-9+.-]*`, or the
authority is empty. -/

structure URLM where
  scheme : String
  host : String
  hostname : String
  pathname : String
  search : String
deriving DecidableEq

/-- Split a character list at the first occurrence of `://`. -/
def splitSchemeChars : List Char → Option (List Char × List Char)
  | ':' :: '/' :: '/' :: tail => some ([], tail)
  | c :: rest => (splitSchemeChars rest).map (fun p => (c :: p.1, p.2))
  | [] => none

/-- Characters allowed in a URL scheme after the first letter. -/
def isSchemeChar (c : Char) : Bool := c.isAlpha || c.isDigit || c = '+' || c = '-' || c = '.'

/-- Model of `new URL(raw)` for absolute `scheme://…` URLs; `none` models the
constructor throwing. -/
def parseURL (raw : String) : Option URLM :=
  match splitSchemeChars raw.data with
  | none => none
  | some (schemeChars, after) =>
    let schemeOk := match schemeChars with
      | [] => false
      | c :: _ => c.isAlpha && schemeChars.all isSchemeChar
    if !schemeOk then none
    else
      let authority := after.takeWhile (fun c => !(c = '/' || c = '?' || c = '#'))
      if authority.isEmpty then none
      else
        let rest2 := after.drop authority.length
        let pathChars := rest2.takeWhile (fun c => !(c = '?' || c = '#'))
        let searchChars := (rest2.drop pathChars.length).takeWhile (fun c => c != '#')
        some {
          scheme := String.mk schemeChars
          host := String.mk authority
          hostname := String.mk (authority.takeWhile (fun c => c != ':'))
          pathname := if pathChars.isEmpty then "/" else String.mk pathChars
          search := String.mk searchChars }

/-- Model of `URL.toString()` for the fields we track. -/
def urlToString (u : URLM) : String :=
  u.scheme ++ "://" ++ u.host ++ u.pathname ++ u.search

/-- `describeWsEndpoint` (cdp.js lines 33-40): protocol, host and pathname of
the parsed URL — the query string (where credentials live) is dropped. -/
def describeWsEndpoint (raw : String) : String :=
  match parseURL raw with
  | some u => u.scheme ++ "://" ++ u.host ++ u.pathname
  | none => "(invalid url)"

/-- `guessWsFromHttp` (cdp.js lines 130-135): swap `https`→`wss` (else `ws`),
default an empty path to `/ws`. -/
def guessWs (u : URLM) : String :=
  urlToString { u with
    scheme := if u.scheme = "https" then "wss" else "ws"
    pathname := if u.pathname = "" || u.pathname = "/" then "/ws" else u.pathname }

/-- Drop one trailing `/` (the `replace(/\/$/, "")` of `joinUrl`). -/
def stripTrailingSlash (p : String) : String :=
  match p.data.getLast? with
  | some '/' => String.mk p.data.dropLast
  | _ => p

/-- `joinUrl(httpUrl, "/json/version")` (cdp.js lines 107-112) on the parsed
base URL. -/
def joinUrlVersion (u : URLM) : String :=
  urlToString { u with pathname := stripTrailingSlash u.pathname ++ "/json/version" }

/-- Model of `String.prototype.startsWith`. -/
def strStartsWith (s p : String) : Bool := p.data.isPrefixOf s.data

/-- Model of `String.prototype.trim` (ASCII whitespace only). -/
def strTrim (s : String) : String :=
  String.mk (((s.data.dropWhile isWsCharJS).reverse.dropWhile isWsCharJS).reverse)

/-- `getCdpWsUrlFromEnv` (cdp.js lines 27-31): first non-empty of
`LIGHTPANDA_CDP_URL` and `CDP_WS_URL`, trimmed; `none` when blank.  Unset
environment variables are modelled as `""` (both are falsy in
`process.env.X || …`). -/
def getCdpWsUrlFromEnv (lightpandaUrl cdpWsUrl : String) : Option String :=
  let raw := strTrim (if lightpandaUrl != "" then lightpandaUrl else cdpWsUrl)
  if raw = "" then none else some raw

/-! ## Connection establishment (`connect`, cdp.js lines 145-204)

Network effects are parameterized by an `Oracle` giving the environment's
answer to each DNS lookup, WebSocket connect attempt and discovery fetch; the
functions also return the trace of attempted network operations in order. -/

/-- Outcome of `dns.lookup(hostname)` as observed by `assertDnsResolves`
(cdp.js lines 42-51): success, `ENOTFOUND`, or any other error (which that
function swallows). -/
inductive DnsRes
  | ok
  | enotfound
  | otherErr
deriving DecidableEq

/-- Outcome of a `connectWebSocket` attempt (cdp.js lines 75-93): the `open`
event, the connect timer expiring, or the `error` event (also covering a
synchronously throwing WebSocket constructor). -/
inductive WsRes
  | ok
  | timeout
  | err
deriving DecidableEq

/-- Outcome of one `fetch`-and-parse of a discovery URL: a JSON document with
an optional `webSocketDebuggerUrl` field, an abort by the timeout controller,
or any other failure (non-2xx `HTTP n` errors, network errors, JSON parse
errors) carrying its message. -/
inductive FetchRes
  | okJson (webSocketDebuggerUrl : Option String)
  | abort
  | errMsg (m : String)

/-- The environment's answers to network operations. -/
structure Oracle where
  dns : String → DnsRes
  ws : String → WsRes
  fetch : String → FetchRes

/-- A network operation attempted by `connect`, in order. -/
inductive NetOp
  | dnsLookup (hostname : String)
  | wsConnect (url : String)
  | fetchJson (url : String)
deriving DecidableEq

/-- Error message thrown for an `ENOTFOUND` DNS result (cdp.js line 48). -/
def squote : String := String.singleton (Char.ofNat 39)

/-- The `assertDnsResolves` failure message (cdp.js line 48). -/
def dnsFailMsg (hostname : String) : String :=
  "DNS lookup failed for host " ++ squote ++ hostname ++ squote ++ " (ENOTFOUND)."

/-- The invalid-scheme configuration error (cdp.js lines 170-172). -/
def invalidSchemeMsg : String :=
  "Invalid LIGHTPANDA_CDP_URL/CDP_WS_URL (must start with ws://, wss://, http://, or https://)."

/-- `connectWebSocket` timeout rejection (cdp.js line 81). -/
def wsTimeoutMsg : String := "WebSocket connect timeout"

/-- `connectWebSocket` error rejection (cdp.js line 90). -/
def wsErrorMsg : String := "WebSocket error"

/-- `resolveWsFromHttp` failure (cdp.js line 127). -/
def couldNotResolveMsg : String := "Could not resolve webSocketDebuggerUrl from HTTP endpoint."

/-- Modelled message of the `AbortError` raised by an aborted fetch. -/
def abortMsg : String := "This operation was aborted"

/-- Modelled message of the TypeError thrown by `new URL` on invalid input. -/
def invalidURLMsg : String := "Invalid URL"

/-- Timeout error of the localhost fallback path (cdp.js lines 198-200). -/
def localTimeoutMsg : String :=
  "Connection timeout - set LIGHTPANDA_CDP_URL (recommended) or run Chrome with --remote-debugging-port=9222."

/-- The discovery endpoint of the dev fallback (cdp.js line 188). -/
def localhostVersionUrl : String := "http://localhost:9222/json/version"

/-- Result of one `connectWebSocket wsUrl` call: on success the ready client
is represented by the URL it connected to. -/
def wsResult (o : Oracle) (wsUrl : String) : Except String String :=
  match o.ws wsUrl with
  | WsRes.ok => Except.ok wsUrl
  | WsRes.timeout => Except.error wsTimeoutMsg
  | WsRes.err => Except.error wsErrorMsg

/-- `resolveWsFromHttp` (cdp.js lines 114-128) followed by
`connectWebSocket` on the URL it resolves: try the given URL as-is (all
failures swallowed), then the `/json/version` discovery path. -/
def resolveWs (httpUrl : String) (u : URLM) (o : Oracle) :
    List NetOp × Except String String :=
  match o.fetch httpUrl with
  | FetchRes.okJson (some w) =>
    ([NetOp.fetchJson httpUrl, NetOp.wsConnect w], wsResult o w)
  | _ =>
    let vUrl := joinUrlVersion u
    match o.fetch vUrl with
    | FetchRes.okJson (some w) =>
      ([NetOp.fetchJson httpUrl, NetOp.fetchJson vUrl, NetOp.wsConnect w], wsResult o w)
    | FetchRes.okJson none =>
      ([NetOp.fetchJson httpUrl, NetOp.fetchJson vUrl], Except.error couldNotResolveMsg)
    | FetchRes.abort =>
      ([NetOp.fetchJson httpUrl, NetOp.fetchJson vUrl], Except.error abortMsg)
    | FetchRes.errMsg m =>
      ([NetOp.fetchJson httpUrl, NetOp.fetchJson vUrl], Except.error m)

/-- Body of the `try` block of the environment-URL path of `connect`
(cdp.js lines 148-172), before the catch-wrapping: parse the URL, run the DNS
pre-check when a hostname parsed, then branch on the raw string's scheme. -/
def connectEnvInner (url : String) (o : Oracle) : List NetOp × Except String String :=
  let pu := parseURL url
  let dnsOps : List NetOp :=
    match pu with
    | some u => [NetOp.dnsLookup u.hostname]
    | none => []
  let dnsFail : Option String :=
    match pu with
    | some u =>
      match o.dns u.hostname with
      | DnsRes.enotfound => some (dnsFailMsg u.hostname)
      | _ => none
    | none => none
  match dnsFail with
  | some m => (dnsOps, Except.error m)
  | none =>
    if strStartsWith url "ws://" || strStartsWith url "wss://" then
      (dnsOps ++ [NetOp.wsConnect url], wsResult o url)
    else if strStartsWith url "http://" || strStartsWith url "https://" then
      match pu with
      | none => (dnsOps, Except.error invalidURLMsg)
      | some u =>
        let g := guessWs u
        match o.ws g with
        | WsRes.ok => (dnsOps ++ [NetOp.wsConnect g], Except.ok g)
        | _ =>
          let r := resolveWs url u o
          (dnsOps ++ [NetOp.wsConnect g] ++ r.1, r.2)
    else
      (dnsOps, Except.error invalidSchemeMsg)

/-- The wrapped error message of the environment-URL path (cdp.js lines
173-180): endpoint described without its query string, detail passed through
`redactSecrets`, empty redacted detail omitted. -/
def connectFailMessage (url detail : String) : String :=
  let d := redactSecrets detail
  "Failed to connect to CDP websocket at " ++ describeWsEndpoint url ++
    ". Verify LIGHTPANDA_CDP_URL and your network access." ++
    (if d = "" then "" else " " ++ d)

/-- The environment-URL path of `connect`: the inner body with every error
wrapped by the catch block. -/
def connectEnv (url : String) (o : Oracle) : List NetOp × Except String String :=
  match connectEnvInner url o with
  | (ops, Except.ok w) => (ops, Except.ok w)
  | (ops, Except.error detail) => (ops, Except.error (connectFailMessage url detail))

/-- The dev-fallback path of `connect` (cdp.js lines 183-203): fetch the
localhost discovery document; an abort becomes the localhost timeout error,
any other error is rethrown unwrapped.  A missing `webSocketDebuggerUrl`
field makes `new WebSocket(undefined)` fail, modelled as the invalid-URL
error. -/
def connectNoEnv (o : Oracle) : List NetOp × Except String String :=
  match o.fetch localhostVersionUrl with
  | FetchRes.okJson (some w) =>
    ([NetOp.fetchJson localhostVersionUrl, NetOp.wsConnect w], wsResult o w)
  | FetchRes.okJson none =>
    ([NetOp.fetchJson localhostVersionUrl], Except.error invalidURLMsg)
  | FetchRes.abort =>
    ([NetOp.fetchJson localhostVersionUrl], Except.error localTimeoutMsg)
  | FetchRes.errMsg m =>
    ([NetOp.fetchJson localhostVersionUrl], Except.error m)

/-- `connect` (cdp.js lines 145-204), given the two environment variables and
the network oracle. -/
def connect (lightpandaUrl cdpWsUrl : String) (o : Oracle) :
    List NetOp × Except String String :=
  match getCdpWsUrlFromEnv lightpandaUrl cdpWsUrl with
  | some u => connectEnv u o
  | none => connectNoEnv o

deriving instance DecidableEq for Except

/-- Oracle with resolving DNS, succeeding WebSocket connections and discovery
documents without a `webSocketDebuggerUrl` field. -/
def oracleDnsOk : Oracle :=
  { dns := fun _ => DnsRes.ok
    ws := fun _ => WsRes.ok
    fetch := fun _ => FetchRes.okJson none }

/-! ## The `CDP` class (cdp.js lines 206-364)

The class is modelled as a state record plus a step function over client
events.  Promise settlements, timer cancellations, socket writes and event
handler invocations are reified into an output list: `Output.resolve i v` /
`Output.reject i m` stand for settling the promise of the `send` call with
correlation id `i`, `Output.clearTimer i` for the `clearTimeout` performed by
the stored wrapper callbacks, `Output.invoked …` for one handler call.
Timers are untimed: the expiry of the per-call timer of id `i` is the
explicit event `ClientEvent.timerFire i`, delivered only while the entry is
pending (a cleared timer never fires).  Registered handlers are opaque: a
handler is a reference id plus whether its body throws. -/

/-- A minimal JSON value, as carried in `params` and `result` fields. -/
inductive Json
  | null
  | bool (b : Bool)
  | num (n : Int)
  | str (s : String)
  | arr (elems : List Json)
  | obj (fields : List (String × Json))

/-- A protocol error object; only its `message` field is read (cdp.js
line 221). -/
structure ErrObj where
  message : String
deriving DecidableEq

/-- A parsed inbound frame.  Absent fields are `none`; `JSON.parse` throwing
on a malformed frame is represented upstream by the whole message being
`none` (see `ClientEvent.frame`). -/
structure Msg where
  id? : Option Nat := none
  error? : Option ErrObj := none
  result? : Option Json := none
  method? : Option String := none
  params? : Option Json := none
  sessionId? : Option String := none

/-- One pending request: the entry of `this.callbacks` for an id, together
with the `method` captured by the timer closure of `send` (used in the
timeout message, cdp.js line 271). -/
structure Pending where
  method : String
deriving DecidableEq

/-- An event handler reference: an identity (JS `Set` membership is by
reference identity) and whether invoking it throws. -/
structure Handler where
  hid : Nat
  throws : Bool
deriving DecidableEq

/-- The state of a `CDP` instance (constructor, cdp.js lines 207-213). -/
structure CDPState where
  id : Nat
  callbacks : List (Nat × Pending)
  eventHandlers : List (String × List Handler)
  sessions : List (String × String)
  wsOpen : Bool

/-- Observable effects of one step of the client. -/
inductive Output
  | wsSend (id : Nat) (method : String) (params : Json) (sessionId : Option String)
  | wsClose
  | parseError
  | clearTimer (id : Nat)
  | resolve (id : Nat) (result : Option Json)
  | reject (id : Nat) (message : String)
  | invoked (hid : Nat) (params : Json) (sessionId : Option String) (threw : Bool)

/-- Events driving the client: a `send` call, an inbound frame (`none` when
`JSON.parse` throws on it), a pending per-call timer expiring, `close()`. -/
inductive ClientEvent
  | send (method : String) (params : Json) (sessionId : Option String)
  | frame (payload : Option Msg)
  | timerFire (id : Nat)
  | close

/-- JS truthiness of `msg.id` (a number field: absent and `0` are falsy). -/
def truthyNat : Option Nat → Bool
  | some n => n != 0
  | none => false

/-- JS truthiness of an optional string (absent and `""` are falsy). -/
def truthyStr : Option String → Bool
  | some s => s != ""
  | none => false

/-- `msg.sessionId || null` (cdp.js line 229). -/
def sessionOrNull : Option String → Option String
  | some s => if s = "" then none else some s
  | none => none

/-- `this.callbacks.delete(i)`. -/
def eraseCb (cbs : List (Nat × Pending)) (i : Nat) : List (Nat × Pending) :=
  cbs.filter (fun p => p.1 != i)

/-- The state built by the constructor (cdp.js lines 207-213). -/
def CDP.init : CDPState :=
  { id := 0, callbacks := [], eventHandlers := [], sessions := [], wsOpen := true }

/-- `send` (cdp.js lines 263-287): allocate `++this.id`, register the
callback entry, write the frame (with `sessionId` only when truthy).  The
timer armed here fires as the separate event `ClientEvent.timerFire`. -/
def CDP.send (s : CDPState) (method : String) (params : Json)
    (sessionId : Option String) : CDPState × List Output :=
  let msgId := s.id + 1
  ({ s with id := msgId, callbacks := s.callbacks ++ [(msgId, { method := method })] },
   [Output.wsSend msgId method params (if truthyStr sessionId then sessionId else none)])

/-- `emit` (cdp.js lines 251-261): invoke every registered handler for the
method; a throwing handler is caught and ignored, so every handler is
invoked and `emit` always returns normally. -/
def CDP.emit (s : CDPState) (method : String) (params : Json)
    (sessionId : Option String) : List Output :=
  match s.eventHandlers.lookup method with
  | none => []
  | some handlers =>
    if handlers.isEmpty then []
    else handlers.map (fun h => Output.invoked h.hid params sessionId h.throws)

/-- The event half of the message listener (cdp.js lines 228-230):
`if (msg.method) this.emit(msg.method, msg.params || {}, msg.sessionId || null)`. -/
def CDP.dispatchEvent (s : CDPState) (m : Msg) : CDPState × List Output :=
  match m.method? with
  | some meth =>
    if meth != "" then
      (s, CDP.emit s meth (m.params?.getD (Json.obj [])) (sessionOrNull m.sessionId?))
    else (s, [])
  | none => (s, [])

/-- The message listener on a parsed frame (cdp.js lines 217-230): a truthy
id with a pending entry settles that call (the stored wrappers clear the
timer first); otherwise the frame is dispatched as an event (or dropped). -/
def CDP.dispatch (s : CDPState) (m : Msg) : CDPState × List Output :=
  match m.id? with
  | some i =>
    if i != 0 && (s.callbacks.lookup i).isSome then
      match m.error? with
      | some e =>
        ({ s with callbacks := eraseCb s.callbacks i },
         [Output.clearTimer i, Output.reject i e.message])
      | none =>
        ({ s with callbacks := eraseCb s.callbacks i },
         [Output.clearTimer i, Output.resolve i m.result?])
    else CDP.dispatchEvent s m
  | none => CDP.dispatchEvent s m

/-- One invocation of the message listener as the transport delivers one
frame (cdp.js lines 214-231): `const msg = JSON.parse(toTextPayload(raw))`
runs with no surrounding try/catch (contrast `CDP.emit`, whose handler calls
are wrapped), so on an unparseable payload (`none`) the parse exception
escapes the listener invocation uncaught; a parsed message is dispatched
normally. -/
def CDP.onMessage (s : CDPState) (payload : Option Msg) :
    Except Unit (CDPState × List Output) :=
  match payload with
  | none => Except.error ()
  | some m => Except.ok (CDP.dispatch s m)

/-- The per-call timer body of `send` (cdp.js lines 269-272): delete the
entry, reject with the timeout message.  A fire on an absent entry models a
cleared timer and does nothing. -/
def CDP.timerFire (s : CDPState) (i : Nat) : CDPState × List Output :=
  match s.callbacks.lookup i with
  | some entry =>
    ({ s with callbacks := eraseCb s.callbacks i },
     [Output.reject i ("CDP timeout: " ++ entry.method)])
  | none => (s, [])

/-- `close` (cdp.js lines 361-363): close the socket and nothing else. -/
def CDP.close (s : CDPState) : CDPState × List Output :=
  ({ s with wsOpen := false }, [Output.wsClose])

/-- `on` (cdp.js lines 234-240): create the set on first registration, add
the handler (set semantics: already-registered references are not added
twice). -/
def CDP.on (s : CDPState) (method : String) (h : Handler) : CDPState :=
  match s.eventHandlers.lookup method with
  | none => { s with eventHandlers := s.eventHandlers ++ [(method, [h])] }
  | some hs =>
    if hs.any (fun x => x.hid == h.hid) then s
    else
      { s with eventHandlers :=
          s.eventHandlers.map (fun p => if p.1 == method then (p.1, hs ++ [h]) else p) }

/-- `off` (cdp.js lines 242-249): remove the handler; drop the set when it
becomes empty. -/
def CDP.off (s : CDPState) (method : String) (h : Handler) : CDPState :=
  match s.eventHandlers.lookup method with
  | none => s
  | some hs =>
    let hs2 := hs.filter (fun x => x.hid != h.hid)
    if hs2.isEmpty then
      { s with eventHandlers := s.eventHandlers.filter (fun p => p.1 != method) }
    else
      { s with eventHandlers :=
          s.eventHandlers.map (fun p => if p.1 == method then (p.1, hs2) else p) }

/-- One step of the client on one event.  The `frame none` case records the
parse exception that escapes the listener (see `CDP.onMessage`) as
`Output.parseError` and leaves the state unchanged; that `CDP.run` then
continues with later events is a modelling device for stating per-event
properties under the assumption that the transport keeps delivering — the
code itself does not establish that the process survives the escaped
exception (the subject of claim C1), it only determines that no client
state changes. -/
def CDP.step (s : CDPState) : ClientEvent → CDPState × List Output
  | ClientEvent.send method params sessionId => CDP.send s method params sessionId
  | ClientEvent.frame none => (s, [Output.parseError])
  | ClientEvent.frame (some m) => CDP.dispatch s m
  | ClientEvent.timerFire i => CDP.timerFire s i
  | ClientEvent.close => CDP.close s

/-- Run the client on a sequence of events, concatenating the outputs. -/
def CDP.run : CDPState → List ClientEvent → CDPState × List Output
  | s, [] => (s, [])
  | s, e :: es =>
    let p := CDP.step s e
    let q := CDP.run p.1 es
    (q.1, p.2 ++ q.2)

/-- The correlation ids written to the socket, in order. -/
def sentIds (outs : List Output) : List Nat :=
  outs.filterMap (fun o =>
    match o with
    | Output.wsSend i _ _ _ => some i
    | _ => none)

/-- Is this event a `send` call? -/
def isSendEvent : ClientEvent → Bool
  | ClientEvent.send _ _ _ => true
  | _ => false

/-- The pending correlation ids of a state. -/
def cbKeys (s : CDPState) : List Nat := s.callbacks.map Prod.fst

/-! ## `evaluate` (cdp.js lines 302-321) -/

/-- A remote object as returned by `Runtime.evaluate`; only `value` is
read. -/
structure RemoteObject where
  value : Option Json

/-- The `exception` member of exception details; only `description` is
read. -/
structure ExceptionObj where
  description : Option String
deriving DecidableEq

/-- `exceptionDetails` of a `Runtime.evaluate` reply. -/
structure ExceptionDetails where
  exception : Option ExceptionObj := none
  text : String
deriving DecidableEq

/-- The reply payload of `Runtime.evaluate` as read by `evaluate`. -/
structure EvalReply where
  exceptionDetails : Option ExceptionDetails := none
  result : Option RemoteObject := none

/-- JS `a || b` on an optional string: `undefined` and `""` fall through to
`b`. -/
def jsOrStr (a : Option String) (b : String) : String :=
  match a with
  | some s => if s = "" then b else s
  | none => b

/-- `exceptionDetails.exception?.description`. -/
def descOf (ed : ExceptionDetails) : Option String :=
  ed.exception.bind (fun e => e.description)

/-- The parameters object sent by `evaluate` (cdp.js lines 305-309). -/
def evaluateParams (expression : String) : Json :=
  Json.obj [("expression", Json.str expression),
            ("returnByValue", Json.bool true),
            ("awaitPromise", Json.bool true)]

/-- The `send` issued by `evaluate` (cdp.js lines 303-312): method
`Runtime.evaluate`, by-value and promise-awaiting params, scoped to the
session. -/
def CDP.evaluate (s : CDPState) (sessionId : String) (expression : String) :
    CDPState × List Output :=
  CDP.send s "Runtime.evaluate" (evaluateParams expression) (some sessionId)

/-- The reply handling of `evaluate` (cdp.js lines 314-320): exception
details make the call throw `exception?.description || text`, otherwise it
returns `result.result?.value`. -/
def CDP.evaluateReply (r : EvalReply) : Except String (Option Json) :=
  match r.exceptionDetails with
  | some ed => Except.error (jsOrStr (descOf ed) ed.text)
  | none => Except.ok (r.result.bind (fun ro => ro.value))

/-! ## Helper lemmas -/

theorem lookup_eraseCb_self (cbs : List (Nat × Pending)) (i : Nat) :
    (eraseCb cbs i).lookup i = none := by
  induction cbs with
  | nil => rfl
  | cons p t ih =>
    obtain ⟨k, v⟩ := p
    by_cases hk : k = i
    · subst hk
      simpa [eraseCb] using ih
    · have hkb : (k != i) = true := by simpa using hk
      have hik : (i == k) = false := by
        simp only [beq_eq_false_iff_ne]
        exact fun e => hk e.symm
      simp only [eraseCb, List.filter_cons, hkb, if_true, List.lookup, hik]
      exact ih

theorem lookup_eraseCb_ne (cbs : List (Nat × Pending)) (i j : Nat) (h : j ≠ i) :
    (eraseCb cbs i).lookup j = cbs.lookup j := by
  induction cbs with
  | nil => rfl
  | cons p t ih =>
    obtain ⟨k, v⟩ := p
    by_cases hk : k = i
    · subst hk
      have hjk : (j == k) = false := by simpa using h
      simp only [eraseCb, List.filter_cons, bne_self_eq_false, Bool.false_eq_true, if_false,
        List.lookup, hjk]
      exact ih
    · have hkb : (k != i) = true := by simpa using hk
      simp only [eraseCb, List.filter_cons, hkb, if_true, List.lookup]
      cases hjk : (j == k) with
      | true => rfl
      | false => exact ih

theorem keys_eraseCb_sublist (cbs : List (Nat × Pending)) (i : Nat) :
    ((eraseCb cbs i).map Prod.fst).Sublist (cbs.map Prod.fst) :=
  List.Sublist.map Prod.fst (List.filter_sublist cbs)

/-! ## Claims -/

/-- C1: the message listener parses every inbound frame with no try/catch
(`CDP.onMessage`; contrast `CDP.emit`, which does catch handler errors), so
on every client state an unparseable frame makes the parse exception escape
the listener invocation uncaught, while a parseable frame is dispatched
normally — nothing in the code confines the failure to that message, so the
claimed behavior (a fatal parse error for that message only, after which the
connection survives and subsequent frames are still dispatched) is not
implemented: under the runtime's default uncaught-exception policy the
escaped exception terminates the process together with the connection and
the dispatch loop. -/
theorem claim_C1_malformed_frame_bug (s : CDPState) :
    CDP.onMessage s none = Except.error () ∧
    (∀ m : Msg, CDP.onMessage s (some m) = Except.ok (CDP.dispatch s m)) := by
  exact ⟨rfl, fun m => rfl⟩

/-- C2: `close()` only closes the socket; the pending-callback map is left
exactly as it was and no rejection (connection-closed or otherwise) is
emitted, so a pending `send` is not rejected at the moment `close()` is
invoked — contradicting the specified connection-closed rejection (it is
only settled later by its own timer with a timeout error, cf.
`claim_C4_timeout`). -/
theorem claim_C2_close_pending_bug (s : CDPState) :
    (CDP.step s ClientEvent.close).1.callbacks = s.callbacks ∧
    (CDP.step s ClientEvent.close).2 = [Output.wsClose] := by
  exact ⟨rfl, rfl⟩

/-- C4: when the per-call timer of a pending `send` fires, the call is
rejected with `CDP timeout: <method>` (the message carries the method name),
its entry is removed at that moment (other entries untouched), and a reply
for the same id arriving afterwards is dropped without any effect. -/
theorem claim_C4_timeout (s : CDPState) (i : Nat) (e : Pending)
    (hpend : s.callbacks.lookup i = some e) :
    (CDP.step s (ClientEvent.timerFire i)).2 =
      [Output.reject i ("CDP timeout: " ++ e.method)] ∧
    (CDP.step s (ClientEvent.timerFire i)).1.callbacks.lookup i = none ∧
    (∀ j, j ≠ i →
      (CDP.step s (ClientEvent.timerFire i)).1.callbacks.lookup j = s.callbacks.lookup j) ∧
    (∀ m : Msg, m.id? = some i → m.method? = none →
      CDP.step (CDP.step s (ClientEvent.timerFire i)).1 (ClientEvent.frame (some m)) =
        ((CDP.step s (ClientEvent.timerFire i)).1, [])) := by
  have hstep : CDP.step s (ClientEvent.timerFire i) =
      ({ s with callbacks := eraseCb s.callbacks i },
       [Output.reject i ("CDP timeout: " ++ e.method)]) := by
    simp [CDP.step, CDP.timerFire, hpend]
  refine ⟨by rw [hstep], ?_, ?_, ?_⟩
  · rw [hstep]
    exact lookup_eraseCb_self s.callbacks i
  · intro j hj
    rw [hstep]
    exact lookup_eraseCb_ne s.callbacks i j hj
  · intro m hid hmeth
    rw [hstep]
    have hlk : (eraseCb s.callbacks i).lookup i = none := lookup_eraseCb_self s.callbacks i
    simp [CDP.step, CDP.dispatch, hid, hlk, CDP.dispatchEvent, hmeth]

/-- C4 witness: a pending call with id 1 and method `Browser.getVersion`
whose timer fires is rejected with the timeout message naming the method,
its entry is removed, and a late reply for id 1 does nothing. -/
theorem claim_C4_timeout_witness :
    (CDP.step { CDP.init with id := 1, callbacks := [(1, { method := "Browser.getVersion" })] } (ClientEvent.timerFire 1)).2 = [Output.reject 1 ("CDP timeout: " ++ "Browser.getVersion")] ∧
    (CDP.step { CDP.init with id := 1, callbacks := [(1, { method := "Browser.getVersion" })] } (ClientEvent.timerFire 1)).1.callbacks.lookup 1 = none ∧
    (∀ j, j ≠ 1 → (CDP.step { CDP.init with id := 1, callbacks := [(1, { method := "Browser.getVersion" })] } (ClientEvent.timerFire 1)).1.callbacks.lookup j = ({ CDP.init with id := 1, callbacks := [(1, { method := "Browser.getVersion" })] } : CDPState).callbacks.lookup j) ∧
    (∀ m : Msg, m.id? = some 1 → m.method? = none → CDP.step (CDP.step { CDP.init with id := 1, callbacks := [(1, { method := "Browser.getVersion" })] } (ClientEvent.timerFire 1)).1 (ClientEvent.frame (some m)) = ((CDP.step { CDP.init with id := 1, callbacks := [(1, { method := "Browser.getVersion" })] } (ClientEvent.timerFire 1)).1, [])) :=
  claim_C4_timeout _ 1 { method := "Browser.getVersion" } rfl

/-- C5: a reply frame whose (truthy) id matches a pending entry settles that
call — with an error using the error object's `message` field when present,
otherwise resolving with the frame's `result` payload — clearing the
per-call timer in both cases and removing exactly that entry; a reply frame
whose id matches no pending entry is dropped with no state change and no
output. -/
theorem claim_C5_reply_dispatch :
    (∀ (s : CDPState) (m : Msg) (i : Nat) (e : Pending),
      m.id? = some i → i ≠ 0 → s.callbacks.lookup i = some e →
      (∀ err, m.error? = some err →
        CDP.dispatch s m = ({ s with callbacks := eraseCb s.callbacks i }, [Output.clearTimer i, Output.reject i err.message])) ∧
      (m.error? = none →
        CDP.dispatch s m = ({ s with callbacks := eraseCb s.callbacks i }, [Output.clearTimer i, Output.resolve i m.result?])) ∧
      (eraseCb s.callbacks i).lookup i = none ∧
      (∀ j, j ≠ i → (eraseCb s.callbacks i).lookup j = s.callbacks.lookup j)) ∧
    (∀ (s : CDPState) (m : Msg) (i : Nat),
      m.id? = some i → s.callbacks.lookup i = none → m.method? = none →
      CDP.dispatch s m = (s, [])) := by
  constructor
  · intro s m i e hid hi hlk
    have hc : (i != 0 && (s.callbacks.lookup i).isSome) = true := by
      simp [hi, hlk]
    refine ⟨?_, ?_, lookup_eraseCb_self _ _, fun j hj => lookup_eraseCb_ne _ _ _ hj⟩
    · intro err herr
      simp [CDP.dispatch, hid, hc, herr]
    · intro herr
      simp [CDP.dispatch, hid, hc, herr]
  · intro s m i hid hlk hmeth
    by_cases hi : i = 0
    · subst hi
      simp [CDP.dispatch, hid, CDP.dispatchEvent, hmeth]
    · simp [CDP.dispatch, hid, hlk, CDP.dispatchEvent, hmeth]

/-- C5 witness: with id 1 pending, an error reply rejects with the error
object's message and an ordinary reply resolves with the result payload,
both clearing the timer; a reply with unmatched id 7 on a fresh client does
nothing. -/
theorem claim_C5_reply_dispatch_witness :
    CDP.dispatch { CDP.init with id := 1, callbacks := [(1, { method := "M" })] } { id? := some 1, error? := some { message := "boom" } } = ({ { CDP.init with id := 1, callbacks := [(1, { method := "M" })] } with callbacks := eraseCb [(1, { method := "M" })] 1 }, [Output.clearTimer 1, Output.reject 1 "boom"]) ∧
    CDP.dispatch { CDP.init with id := 1, callbacks := [(1, { method := "M" })] } { id? := some 1, result? := some (Json.str "v") } = ({ { CDP.init with id := 1, callbacks := [(1, { method := "M" })] } with callbacks := eraseCb [(1, { method := "M" })] 1 }, [Output.clearTimer 1, Output.resolve 1 (some (Json.str "v"))]) ∧
    CDP.dispatch CDP.init { id? := some 7 } = (CDP.init, []) :=
  ⟨(claim_C5_reply_dispatch.1 { CDP.init with id := 1, callbacks := [(1, { method := "M" })] } { id? := some 1, error? := some { message := "boom" } } 1 { method := "M" } rfl (by decide) rfl).1 _ rfl,
   (claim_C5_reply_dispatch.1 { CDP.init with id := 1, callbacks := [(1, { method := "M" })] } { id? := some 1, result? := some (Json.str "v") } 1 { method := "M" } rfl (by decide) rfl).2.1 rfl,
   claim_C5_reply_dispatch.2 CDP.init { id? := some 7 } 7 rfl rfl rfl⟩

/-- C7: dispatching an inbound event invokes every handler registered for
its method — a handler whose body throws is recorded as having thrown but
is caught at the dispatch boundary, so all other handlers are still invoked,
the state is unchanged and the step returns normally; consequently every
subsequent frame is processed exactly as without this event. -/
theorem claim_C7_handler_errors (s : CDPState) (m : Msg) (meth : String) (handlers : List Handler)
    (hid : m.id? = none) (hm : m.method? = some meth) (hne : meth ≠ "")
    (hreg : s.eventHandlers.lookup meth = some handlers) :
    CDP.step s (ClientEvent.frame (some m)) =
      (s, handlers.map (fun h => Output.invoked h.hid (m.params?.getD (Json.obj [])) (sessionOrNull m.sessionId?) h.throws)) ∧
    (∀ evs, CDP.run s (ClientEvent.frame (some m) :: evs) =
      ((CDP.run s evs).1,
        handlers.map (fun h => Output.invoked h.hid (m.params?.getD (Json.obj [])) (sessionOrNull m.sessionId?) h.throws) ++ (CDP.run s evs).2)) := by
  have hb : (meth != "") = true := by simpa using hne
  have hemit : CDP.emit s meth (m.params?.getD (Json.obj [])) (sessionOrNull m.sessionId?) =
      handlers.map (fun h => Output.invoked h.hid (m.params?.getD (Json.obj [])) (sessionOrNull m.sessionId?) h.throws) := by
    simp only [CDP.emit, hreg]
    cases handlers with
    | nil => simp
    | cons a t => simp
  have hstep : CDP.step s (ClientEvent.frame (some m)) =
      (s, handlers.map (fun h => Output.invoked h.hid (m.params?.getD (Json.obj [])) (sessionOrNull m.sessionId?) h.throws)) := by
    simp [CDP.step, CDP.dispatch, hid, CDP.dispatchEvent, hm, hb, hemit]
  refine ⟨hstep, fun evs => ?_⟩
  simp [CDP.run, hstep]

/-- C7 witness: two handlers registered for `Target.targetCreated`, the
first of which throws; dispatching one such event invokes both (the throw is
swallowed) and leaves the state unchanged. -/
theorem claim_C7_handler_errors_witness :
    CDP.step { CDP.init with eventHandlers := [("Target.targetCreated", [{ hid := 1, throws := true }, { hid := 2, throws := false }])] } (ClientEvent.frame (some { method? := some "Target.targetCreated" })) =
      ({ CDP.init with eventHandlers := [("Target.targetCreated", [{ hid := 1, throws := true }, { hid := 2, throws := false }])] },
       [Output.invoked 1 (Json.obj []) none true, Output.invoked 2 (Json.obj []) none false]) :=
  (claim_C7_handler_errors { CDP.init with eventHandlers := [("Target.targetCreated", [{ hid := 1, throws := true }, { hid := 2, throws := false }])] } { method? := some "Target.targetCreated" } "Target.targetCreated" [{ hid := 1, throws := true }, { hid := 2, throws := false }] rfl rfl (by decide) rfl).1

/-- C8: `evaluate` issues a session-scoped `Runtime.evaluate` with by-value
and promise-awaiting parameters; a reply carrying exception details makes
the call fail with the exception's `description` when that is present and
non-empty, and with the details' `text` when the description is absent (or
empty), so in that case the error message is exactly that text; a reply
without exception details returns the reply's value. -/
theorem claim_C8_evaluate :
    (∀ (r : EvalReply) (ed : ExceptionDetails), r.exceptionDetails = some ed →
      CDP.evaluateReply r = Except.error (jsOrStr (descOf ed) ed.text) ∧
      ((descOf ed = none ∨ descOf ed = some "") → CDP.evaluateReply r = Except.error ed.text) ∧
      (∀ d, descOf ed = some d → d ≠ "" → CDP.evaluateReply r = Except.error d)) ∧
    (∀ r : EvalReply, r.exceptionDetails = none →
      CDP.evaluateReply r = Except.ok (r.result.bind (fun ro => ro.value))) ∧
    (∀ (s : CDPState) (sid expr : String),
      (CDP.evaluate s sid expr).2 = [Output.wsSend (s.id + 1) "Runtime.evaluate" (evaluateParams expr) (if sid = "" then none else some sid)]) := by
  refine ⟨?_, ?_, ?_⟩
  · intro r ed hed
    refine ⟨by simp [CDP.evaluateReply, hed], ?_, ?_⟩
    · intro hd
      rcases hd with h | h <;> simp [CDP.evaluateReply, hed, jsOrStr, h]
    · intro d hd hne
      simp [CDP.evaluateReply, hed, jsOrStr, hd, hne]
  · intro r h
    simp [CDP.evaluateReply, h]
  · intro s sid expr
    by_cases h : sid = "" <;> simp [CDP.evaluate, CDP.send, truthyStr, h]

/-- C8 witness: a reply whose exception details carry only
`text: "Uncaught ReferenceError: x is not defined"` fails with exactly that
message. -/
theorem claim_C8_evaluate_witness :
    CDP.evaluateReply { exceptionDetails := some { text := "Uncaught ReferenceError: x is not defined" } } = Except.error "Uncaught ReferenceError: x is not defined" :=
  (claim_C8_evaluate.1 _ { text := "Uncaught ReferenceError: x is not defined" } rfl).2.1 (Or.inl rfl)

theorem sentIds_append (a b : List Output) : sentIds (a ++ b) = sentIds a ++ sentIds b := by
  simp [sentIds, List.filterMap_append]

theorem sentIds_invoked (handlers : List Handler) (p : Json) (sid : Option String) :
    sentIds (handlers.map (fun h => Output.invoked h.hid p sid h.throws)) = [] := by
  induction handlers with
  | nil => rfl
  | cons a t ih =>
    simp only [List.map_cons, sentIds, List.filterMap_cons]
    exact ih

theorem emit_no_sends (s : CDPState) (meth : String) (p : Json) (sid : Option String) :
    sentIds (CDP.emit s meth p sid) = [] := by
  unfold CDP.emit
  split
  · rfl
  · split
    · rfl
    · exact sentIds_invoked _ _ _

theorem dispatchEvent_facts (s : CDPState) (m : Msg) :
    (CDP.dispatchEvent s m).1 = s ∧ sentIds (CDP.dispatchEvent s m).2 = [] := by
  unfold CDP.dispatchEvent
  split
  · split
    · exact ⟨rfl, emit_no_sends _ _ _ _⟩
    · exact ⟨rfl, rfl⟩
  · exact ⟨rfl, rfl⟩

theorem dispatch_facts (s : CDPState) (m : Msg) :
    (CDP.dispatch s m).1.id = s.id ∧ sentIds (CDP.dispatch s m).2 = [] ∧
    ((CDP.dispatch s m).1.callbacks.map Prod.fst).Sublist (s.callbacks.map Prod.fst) := by
  unfold CDP.dispatch
  split
  · split
    · split
      · exact ⟨rfl, rfl, keys_eraseCb_sublist _ _⟩
      · exact ⟨rfl, rfl, keys_eraseCb_sublist _ _⟩
    · obtain ⟨h1, h2⟩ := dispatchEvent_facts s m
      exact ⟨by rw [h1], h2, by rw [h1]⟩
  · obtain ⟨h1, h2⟩ := dispatchEvent_facts s m
    exact ⟨by rw [h1], h2, by rw [h1]⟩

theorem timerFire_facts (s : CDPState) (i : Nat) :
    (CDP.timerFire s i).1.id = s.id ∧ sentIds (CDP.timerFire s i).2 = [] ∧
    ((CDP.timerFire s i).1.callbacks.map Prod.fst).Sublist (s.callbacks.map Prod.fst) := by
  unfold CDP.timerFire
  split
  · exact ⟨rfl, rfl, keys_eraseCb_sublist _ _⟩
  · exact ⟨rfl, rfl, List.Sublist.refl _⟩

theorem step_nonsend_facts (s : CDPState) (e : ClientEvent) (h : isSendEvent e = false) :
    (CDP.step s e).1.id = s.id ∧ sentIds (CDP.step s e).2 = [] ∧
    ((CDP.step s e).1.callbacks.map Prod.fst).Sublist (s.callbacks.map Prod.fst) := by
  cases e with
  | send meth p sid => simp [isSendEvent] at h
  | frame f =>
    cases f with
    | none => exact ⟨rfl, rfl, List.Sublist.refl _⟩
    | some m => exact dispatch_facts s m
  | timerFire i => exact timerFire_facts s i
  | close => exact ⟨rfl, rfl, List.Sublist.refl _⟩

theorem run_cons (s : CDPState) (e : ClientEvent) (evs : List ClientEvent) :
    CDP.run s (e :: evs) =
      ((CDP.run (CDP.step s e).1 evs).1, (CDP.step s e).2 ++ (CDP.run (CDP.step s e).1 evs).2) := by
  simp [CDP.run]

theorem run_ids (evs : List ClientEvent) : ∀ s : CDPState,
    sentIds (CDP.run s evs).2 = List.range' (s.id + 1) (evs.countP isSendEvent) ∧
    (((s.callbacks.map Prod.fst).Nodup ∧ ∀ k ∈ s.callbacks.map Prod.fst, 0 < k ∧ k ≤ s.id) →
      ((CDP.run s evs).1.callbacks.map Prod.fst).Nodup ∧
        ∀ k ∈ (CDP.run s evs).1.callbacks.map Prod.fst, 0 < k ∧ k ≤ (CDP.run s evs).1.id) := by
  induction evs with
  | nil =>
    intro s
    constructor
    · simp [CDP.run, sentIds]
    · intro h
      simpa [CDP.run] using h
  | cons e rest ih =>
    intro s
    cases hse : isSendEvent e with
    | true =>
      cases e with
      | frame f => simp [isSendEvent] at hse
      | timerFire i => simp [isSendEvent] at hse
      | close => simp [isSendEvent] at hse
      | send meth pj sid =>
        have hstep : CDP.step s (ClientEvent.send meth pj sid) =
            ({ s with id := s.id + 1, callbacks := s.callbacks ++ [(s.id + 1, { method := meth })] },
             [Output.wsSend (s.id + 1) meth pj (if truthyStr sid then sid else none)]) := rfl
        have hcount : (ClientEvent.send meth pj sid :: rest).countP isSendEvent =
            rest.countP isSendEvent + 1 :=
          List.countP_cons_of_pos _ _ (by simp [isSendEvent])
        obtain ⟨ih1, ih2⟩ := ih { s with id := s.id + 1, callbacks := s.callbacks ++ [(s.id + 1, { method := meth })] }
        constructor
        · rw [run_cons, hstep, hcount]
          simp only [sentIds_append, ih1]
          have hone : sentIds [Output.wsSend (s.id + 1) meth pj (if truthyStr sid then sid else none)] = [s.id + 1] := rfl
          rw [hone]
          rfl
        · intro ⟨hnd, hbd⟩
          rw [run_cons, hstep]
          apply ih2
          constructor
          · rw [List.map_append]
            rw [List.nodup_append]
            refine ⟨hnd, by simp, ?_⟩
            intro k hk hk1
            simp only [List.map_cons, List.map_nil, List.mem_singleton] at hk1
            have := (hbd k hk).2
            omega
          · intro k hk
            rw [List.map_append] at hk
            rcases List.mem_append.mp hk with hk | hk
            · have := hbd k hk
              refine ⟨this.1, ?_⟩
              show k ≤ s.id + 1
              omega
            · simp only [List.map_cons, List.map_nil, List.mem_singleton] at hk
              subst hk
              exact ⟨by omega, le_refl _⟩
    | false =>
      obtain ⟨h1, h2, h3⟩ := step_nonsend_facts s e hse
      have hcount : (e :: rest).countP isSendEvent = rest.countP isSendEvent :=
        List.countP_cons_of_neg _ _ (by simp [hse])
      obtain ⟨ih1, ih2⟩ := ih (CDP.step s e).1
      constructor
      · rw [run_cons, hcount, sentIds_append, h2, ih1, h1]
        rfl
      · intro ⟨hnd, hbd⟩
        rw [run_cons]
        apply ih2
        constructor
        · exact List.Nodup.sublist h3 hnd
        · intro k hk
          have hmem := h3.subset hk
          have := hbd k hmem
          exact ⟨this.1, by rw [h1]; exact this.2⟩

/-- C6: starting from the constructor state, over any sequence of client
events the correlation ids written to the socket are exactly
`1, 2, …, n` (one per `send` call, in order): each `send` gets a fresh id
from a monotonically increasing counter starting above zero and no id is
ever reused; moreover the pending map always holds at most one entry per id
(its key list stays duplicate-free, every key positive and bounded by the
counter). -/
theorem claim_C6_fresh_ids (evs : List ClientEvent) :
    sentIds (CDP.run CDP.init evs).2 = List.range' 1 (evs.countP isSendEvent) ∧
    ((CDP.run CDP.init evs).1.callbacks.map Prod.fst).Nodup ∧
    ∀ k ∈ (CDP.run CDP.init evs).1.callbacks.map Prod.fst,
      0 < k ∧ k ≤ (CDP.run CDP.init evs).1.id := by
  obtain ⟨h1, h2⟩ := run_ids evs CDP.init
  refine ⟨h1, ?_⟩
  exact h2 ⟨List.nodup_nil, by intro k hk; simp [CDP.init] at hk⟩

/-- C3 counterexample: on the endpoint `ftp://host/path` (scheme not among
ws/wss/http/https) the `connect` operation performs a DNS lookup for `host`
before failing — the network-operation trace is non-empty — so the claim
that the configuration error precedes any network I/O (in particular any DNS
lookup) is false; the eventual failure does carry the invalid-scheme
configuration error. -/
theorem claim_C3_counterexample :
    (connectEnv "ftp://host/path" oracleDnsOk).1 = [NetOp.dnsLookup "host"] ∧
    (connectEnv "ftp://host/path" oracleDnsOk).2 = Except.error (connectFailMessage "ftp://host/path" invalidSchemeMsg) := by
  constructor
  · decide
  · set_option maxRecDepth 40000 in decide

/-- C3 amended: for every endpoint whose scheme is none of ws/wss/http/https
and every network environment, `connect` fails and performs no HTTP fetch
and no WebSocket open — its trace holds DNS lookups only — but when the URL
parses, the DNS pre-check does run first; the surfaced failure wraps the
invalid-scheme configuration error, except that an `ENOTFOUND` DNS result
surfaces the DNS failure instead. -/
theorem claim_C3_amended (url : String) (o : Oracle)
    (h1 : strStartsWith url "ws://" = false) (h2 : strStartsWith url "wss://" = false)
    (h3 : strStartsWith url "http://" = false) (h4 : strStartsWith url "https://" = false) :
    (connectEnv url o).1.all (fun op => match op with | NetOp.dnsLookup _ => true | _ => false) = true ∧
    (connectEnv url o).2 = Except.error (connectFailMessage url
      (match parseURL url with
       | some u =>
         match o.dns u.hostname with
         | DnsRes.enotfound => dnsFailMsg u.hostname
         | _ => invalidSchemeMsg
       | none => invalidSchemeMsg)) := by
  unfold connectEnv connectEnvInner
  cases hp : parseURL url with
  | none =>
    simp only [hp, h1, h2, h3, h4, Bool.or_self, Bool.false_or, if_false]
    exact ⟨by simp, by trivial⟩
  | some u =>
    cases hd : o.dns u.hostname with
    | enotfound =>
      simp only [hp, hd]
      exact ⟨by simp, by trivial⟩
    | ok =>
      simp only [hp, hd, h1, h2, h3, h4, Bool.or_self, Bool.false_or, if_false]
      exact ⟨by simp, by trivial⟩
    | otherErr =>
      simp only [hp, hd, h1, h2, h3, h4, Bool.or_self, Bool.false_or, if_false]
      exact ⟨by simp, by trivial⟩

/-- C3 amended witness: the concrete endpoint `ftp://host/path` with
resolving DNS — the trace holds only DNS lookups and the result is the
wrapped invalid-scheme configuration error. -/
theorem claim_C3_amended_witness :
    (connectEnv "ftp://host/path" oracleDnsOk).1.all (fun op => match op with | NetOp.dnsLookup _ => true | _ => false) = true ∧
    (connectEnv "ftp://host/path" oracleDnsOk).2 = Except.error (connectFailMessage "ftp://host/path"
      (match parseURL "ftp://host/path" with
       | some u =>
         match oracleDnsOk.dns u.hostname with
         | DnsRes.enotfound => dnsFailMsg u.hostname
         | _ => invalidSchemeMsg
       | none => invalidSchemeMsg)) :=
  claim_C3_amended "ftp://host/path" oracleDnsOk rfl rfl rfl rfl

/-- C10: with both endpoint environment variables unset, `connect` takes
the localhost fallback — no configuration error is possible: the first
network operation is the discovery fetch of
`http://localhost:9222/json/version`; when that document carries a
`webSocketDebuggerUrl` the client connects to exactly that URL; when the
fetch is aborted by the timeout the failure is the localhost timeout
message, which recommends setting `LIGHTPANDA_CDP_URL`; and every possible
error of this path is either that timeout message, a WebSocket
connect-timeout/error, the invalid-URL failure for a missing field, or the
environment's own fetch error passed through — never the invalid-scheme
configuration error. -/
theorem claim_C10_localhost_fallback (o : Oracle) :
    connect "" "" o = connectNoEnv o ∧
    (connectNoEnv o).1.head? = some (NetOp.fetchJson "http://localhost:9222/json/version") ∧
    (∀ w, o.fetch localhostVersionUrl = FetchRes.okJson (some w) →
      (connectNoEnv o).1 = [NetOp.fetchJson localhostVersionUrl, NetOp.wsConnect w] ∧
      (o.ws w = WsRes.ok → (connectNoEnv o).2 = Except.ok w)) ∧
    (o.fetch localhostVersionUrl = FetchRes.abort →
      (connectNoEnv o).2 = Except.error localTimeoutMsg) ∧
    (∀ m, (connectNoEnv o).2 = Except.error m →
      m = localTimeoutMsg ∨ m = wsTimeoutMsg ∨ m = wsErrorMsg ∨ m = invalidURLMsg ∨
        o.fetch localhostVersionUrl = FetchRes.errMsg m) := by
  refine ⟨rfl, ?_, ?_, ?_, ?_⟩
  · unfold connectNoEnv
    cases hf : o.fetch localhostVersionUrl with
    | okJson w? => cases w? <;> rfl
    | abort => rfl
    | errMsg m => rfl
  · intro w hw
    constructor
    · simp only [connectNoEnv, hw]
    · intro hws
      simp only [connectNoEnv, hw, wsResult, hws]
  · intro ha
    simp only [connectNoEnv, ha]
  · intro m hm
    unfold connectNoEnv at hm
    cases hf : o.fetch localhostVersionUrl with
    | okJson w? =>
      rw [hf] at hm
      cases w? with
      | none =>
        simp only [Except.error.injEq] at hm
        exact Or.inr (Or.inr (Or.inr (Or.inl hm.symm)))
      | some w =>
        simp only [wsResult] at hm
        cases hws : o.ws w with
        | ok => rw [hws] at hm; exact absurd hm (by simp)
        | timeout =>
          rw [hws] at hm
          simp only [Except.error.injEq] at hm
          exact Or.inr (Or.inl hm.symm)
        | err =>
          rw [hws] at hm
          simp only [Except.error.injEq] at hm
          exact Or.inr (Or.inr (Or.inl hm.symm))
    | abort =>
      rw [hf] at hm
      simp only [Except.error.injEq] at hm
      exact Or.inl hm.symm
    | errMsg m2 =>
      rw [hf] at hm
      simp only [Except.error.injEq] at hm
      refine Or.inr (Or.inr (Or.inr (Or.inr ?_)))
      rw [hm]

/-- C10 witness: an environment whose localhost discovery document carries
`webSocketDebuggerUrl: ws://127.0.0.1:9222/devtools/browser/x` and whose
WebSocket connects — the fallback fetches the discovery URL and connects to
exactly that WebSocket URL. -/
theorem claim_C10_localhost_fallback_witness :
    (connectNoEnv { dns := fun _ => DnsRes.ok, ws := fun _ => WsRes.ok, fetch := fun _ => FetchRes.okJson (some "ws://127.0.0.1:9222/devtools/browser/x") }).1 = [NetOp.fetchJson localhostVersionUrl, NetOp.wsConnect "ws://127.0.0.1:9222/devtools/browser/x"] ∧
    (connectNoEnv { dns := fun _ => DnsRes.ok, ws := fun _ => WsRes.ok, fetch := fun _ => FetchRes.okJson (some "ws://127.0.0.1:9222/devtools/browser/x") }).2 = Except.ok "ws://127.0.0.1:9222/devtools/browser/x" :=
  ⟨((claim_C10_localhost_fallback { dns := fun _ => DnsRes.ok, ws := fun _ => WsRes.ok, fetch := fun _ => FetchRes.okJson (some "ws://127.0.0.1:9222/devtools/browser/x") }).2.2.1 "ws://127.0.0.1:9222/devtools/browser/x" rfl).1,
   ((claim_C10_localhost_fallback { dns := fun _ => DnsRes.ok, ws := fun _ => WsRes.ok, fetch := fun _ => FetchRes.okJson (some "ws://127.0.0.1:9222/devtools/browser/x") }).2.2.1 "ws://127.0.0.1:9222/devtools/browser/x" rfl).2 rfl⟩

theorem redactTokF_nil (f : Nat) : redactTokF f [] = [] := by cases f <;> rfl

theorem redactAccF_nil (f : Nat) : redactAccF f [] = [] := by cases f <;> rfl

theorem redactAuthF_nil (f : Nat) : redactAuthF f [] = [] := by cases f <;> rfl

theorem redactTokF_cons (f : Nat) (c : Char) (rest : List Char) :
    redactTokF (f + 1) (c :: rest) =
      if tokTrig (c :: rest) then
        (c :: rest).take 6 ++ stars ++
          redactTokF f (((c :: rest).drop 6).dropWhile (fun x => !stopChar x))
      else c :: redactTokF f rest := rfl

theorem redactAccF_cons (f : Nat) (c : Char) (rest : List Char) :
    redactAccF (f + 1) (c :: rest) =
      if accTrig (c :: rest) then
        (c :: rest).take (accLen (c :: rest)) ++ stars ++
          redactAccF f (((c :: rest).drop (accLen (c :: rest))).dropWhile (fun x => !stopChar x))
      else c :: redactAccF f rest := rfl

theorem redactAuthF_cons (f : Nat) (c : Char) (rest : List Char) :
    redactAuthF (f + 1) (c :: rest) =
      if authTrig (c :: rest) then
        (c :: rest).take 14 ++ (' ' :: stars) ++
          redactAuthF f ((((c :: rest).drop 14).dropWhile isWsCharJS).dropWhile
            (fun x => !isWsCharJS x))
      else c :: redactAuthF f rest := rfl

theorem dropWhile_append_of_all (p : Char → Bool) (xs ys : List Char) (h : xs.all p = true) :
    (xs ++ ys).dropWhile p = ys.dropWhile p := by
  induction xs with
  | nil => rfl
  | cons a t ih =>
    simp only [List.all_cons, Bool.and_eq_true] at h
    simp only [List.cons_append, List.dropWhile_cons, h.1, if_true]
    exact ih h.2

theorem dropWhile_all_nil (p : Char → Bool) (l : List Char) (h : l.all p = true) :
    l.dropWhile p = [] := by
  induction l with
  | nil => rfl
  | cons a t ih =>
    simp only [List.all_cons, Bool.and_eq_true] at h
    simp only [List.dropWhile_cons, h.1, if_true]
    exact ih h.2

theorem redactTokF_id (fuel : Nat) (l : List Char) (h : noTokTrig l = true) :
    redactTokF fuel l = l := by
  induction fuel generalizing l with
  | zero => rfl
  | succ f ih =>
    cases l with
    | nil => rfl
    | cons c rest =>
      simp only [noTokTrig, Bool.and_eq_true] at h
      have hb : tokTrig (c :: rest) = false := by simpa using h.1
      rw [redactTokF_cons, if_neg (by simp [hb]), ih rest h.2]

theorem redactAccF_id (fuel : Nat) (l : List Char) (h : noAccTrig l = true) :
    redactAccF fuel l = l := by
  induction fuel generalizing l with
  | zero => rfl
  | succ f ih =>
    cases l with
    | nil => rfl
    | cons c rest =>
      simp only [noAccTrig, Bool.and_eq_true] at h
      have hb : accTrig (c :: rest) = false := by simpa using h.1
      rw [redactAccF_cons, if_neg (by simp [hb]), ih rest h.2]

theorem redactAuthF_id (fuel : Nat) (l : List Char) (h : noAuthTrig l = true) :
    redactAuthF fuel l = l := by
  induction fuel generalizing l with
  | zero => rfl
  | succ f ih =>
    cases l with
    | nil => rfl
    | cons c rest =>
      simp only [noAuthTrig, Bool.and_eq_true] at h
      have hb : authTrig (c :: rest) = false := by simpa using h.1
      rw [redactAuthF_cons, if_neg (by simp [hb]), ih rest h.2]

theorem redactTok_id (l : List Char) (h : noTokTrig l = true) : redactTok l = l :=
  redactTokF_id _ _ h

theorem redactAcc_id (l : List Char) (h : noAccTrig l = true) : redactAcc l = l :=
  redactAccF_id _ _ h

theorem redactAuth_id (l : List Char) (h : noAuthTrig l = true) : redactAuth l = l :=
  redactAuthF_id _ _ h

theorem redactTokF_split (fuel : Nat) (a : List Char) : ∀ (secret : List Char),
    (a ++ (tokLit ++ secret)).length ≤ fuel →
    cleanBeforeTok a (tokLit ++ secret) = true →
    secret ≠ [] → secret.all (fun c => !stopChar c) = true →
    redactTokF fuel (a ++ (tokLit ++ secret)) = a ++ (tokLit ++ stars) := by
  induction a generalizing fuel with
  | nil =>
    intro secret hlen hclean hne hns
    cases secret with
    | nil => exact absurd rfl hne
    | cons s0 sr =>
      cases fuel with
      | zero =>
        exfalso
        simp [tokLit] at hlen
      | succ f =>
        have hs0 : (!stopChar s0) = true := by
          simp only [List.all_cons, Bool.and_eq_true] at hns
          exact hns.1
        have htrig : tokTrig ('t' :: 'o' :: 'k' :: 'e' :: 'n' :: '=' :: s0 :: sr) = true := by
          show (ciMatches tokLit ('t' :: 'o' :: 'k' :: 'e' :: 'n' :: '=' :: s0 :: sr) &&
            (match ('t' :: 'o' :: 'k' :: 'e' :: 'n' :: '=' :: s0 :: sr).drop 6 with
             | c :: _ => !stopChar c
             | [] => false)) = true
          have hci : ciMatches tokLit ('t' :: 'o' :: 'k' :: 'e' :: 'n' :: '=' :: s0 :: sr) = true := rfl
          rw [hci]
          simpa using hs0
        have hdw : (s0 :: sr).dropWhile (fun x => !stopChar x) = [] :=
          dropWhile_all_nil _ _ hns
        simp only [List.nil_append, tokLit, List.cons_append]
        rw [redactTokF_cons, if_pos htrig]
        simp [hdw, redactTokF_nil, stars]
  | cons c a2 iha =>
    intro secret hlen hclean hne hns
    cases fuel with
    | zero =>
      exfalso
      simp at hlen
    | succ f =>
      simp only [cleanBeforeTok, Bool.and_eq_true] at hclean
      have hb : tokTrig (c :: (a2 ++ (tokLit ++ secret))) = false := by
        simpa using hclean.1
      have hlen2 : (a2 ++ (tokLit ++ secret)).length ≤ f := by
        simp only [List.cons_append, List.length_cons] at hlen
        omega
      simp only [List.cons_append]
      rw [redactTokF_cons, if_neg (by simp [hb]),
        iha f secret hlen2 hclean.2 hne hns]

theorem redactTok_split (a secret : List Char)
    (hclean : cleanBeforeTok a (tokLit ++ secret) = true)
    (hne : secret ≠ []) (hns : secret.all (fun c => !stopChar c) = true) :
    redactTok (a ++ (tokLit ++ secret)) = a ++ (tokLit ++ stars) :=
  redactTokF_split _ a secret le_rfl hclean hne hns

theorem redactAuthF_split (fuel : Nat) (a : List Char) : ∀ (wsp secret : List Char),
    (a ++ (authLit ++ (wsp ++ secret))).length ≤ fuel →
    cleanBeforeAuth a (authLit ++ (wsp ++ secret)) = true →
    wsp.all isWsCharJS = true →
    secret ≠ [] → secret.all (fun c => !isWsCharJS c) = true →
    redactAuthF fuel (a ++ (authLit ++ (wsp ++ secret))) = a ++ (authLit ++ (' ' :: stars)) := by
  induction a generalizing fuel with
  | nil =>
    intro wsp secret hlen hclean hwsp hne hns
    cases secret with
    | nil => exact absurd rfl hne
    | cons s0 sr =>
      cases fuel with
      | zero =>
        exfalso
        simp [authLit] at hlen
      | succ f =>
        have hs0 : isWsCharJS s0 = false := by
          simp only [List.all_cons, Bool.and_eq_true] at hns
          simpa using hns.1
        have hdw1 : (wsp ++ (s0 :: sr)).dropWhile isWsCharJS = s0 :: sr := by
          rw [dropWhile_append_of_all isWsCharJS wsp (s0 :: sr) hwsp]
          simp [List.dropWhile_cons, hs0]
        have hdw2 : (s0 :: sr).dropWhile (fun x => !isWsCharJS x) = [] :=
          dropWhile_all_nil _ _ hns
        have htrig : authTrig ('a' :: 'u' :: 't' :: 'h' :: 'o' :: 'r' :: 'i' :: 'z' :: 'a' :: 't' :: 'i' :: 'o' :: 'n' :: ':' :: (wsp ++ (s0 :: sr))) = true := by
          show (ciMatches authLit ('a' :: 'u' :: 't' :: 'h' :: 'o' :: 'r' :: 'i' :: 'z' :: 'a' :: 't' :: 'i' :: 'o' :: 'n' :: ':' :: (wsp ++ (s0 :: sr))) &&
            (match (('a' :: 'u' :: 't' :: 'h' :: 'o' :: 'r' :: 'i' :: 'z' :: 'a' :: 't' :: 'i' :: 'o' :: 'n' :: ':' :: (wsp ++ (s0 :: sr))).drop 14).dropWhile isWsCharJS with
             | _ :: _ => true
             | [] => false)) = true
          have hci : ciMatches authLit ('a' :: 'u' :: 't' :: 'h' :: 'o' :: 'r' :: 'i' :: 'z' :: 'a' :: 't' :: 'i' :: 'o' :: 'n' :: ':' :: (wsp ++ (s0 :: sr))) = true := rfl
          rw [hci]
          have hdrop : ('a' :: 'u' :: 't' :: 'h' :: 'o' :: 'r' :: 'i' :: 'z' :: 'a' :: 't' :: 'i' :: 'o' :: 'n' :: ':' :: (wsp ++ (s0 :: sr))).drop 14 = wsp ++ (s0 :: sr) := rfl
          rw [hdrop, hdw1]
          rfl
        simp only [List.nil_append, authLit, List.cons_append]
        rw [redactAuthF_cons, if_pos htrig]
        have hdrop2 : ('a' :: 'u' :: 't' :: 'h' :: 'o' :: 'r' :: 'i' :: 'z' :: 'a' :: 't' :: 'i' :: 'o' :: 'n' :: ':' :: (wsp ++ (s0 :: sr))).drop 14 = wsp ++ (s0 :: sr) := rfl
        rw [hdrop2, hdw1, hdw2, redactAuthF_nil]
        simp [stars]
  | cons c a2 iha =>
    intro wsp secret hlen hclean hwsp hne hns
    cases fuel with
    | zero =>
      exfalso
      simp at hlen
    | succ f =>
      simp only [cleanBeforeAuth, Bool.and_eq_true] at hclean
      have hb : authTrig (c :: (a2 ++ (authLit ++ (wsp ++ secret)))) = false := by
        simpa using hclean.1
      have hlen2 : (a2 ++ (authLit ++ (wsp ++ secret))).length ≤ f := by
        simp only [List.cons_append, List.length_cons] at hlen
        omega
      simp only [List.cons_append]
      rw [redactAuthF_cons, if_neg (by simp [hb]),
        iha f wsp secret hlen2 hclean.2 hwsp hne hns]

theorem redactAuth_split (a wsp secret : List Char)
    (hclean : cleanBeforeAuth a (authLit ++ (wsp ++ secret)) = true)
    (hwsp : wsp.all isWsCharJS = true)
    (hne : secret ≠ []) (hns : secret.all (fun c => !isWsCharJS c) = true) :
    redactAuth (a ++ (authLit ++ (wsp ++ secret))) = a ++ (authLit ++ (' ' :: stars)) :=
  redactAuthF_split _ a wsp secret le_rfl hclean hwsp hne hns

/-- C9: every error surfaced by the environment-URL path of `connect` is the
wrapping template — whose endpoint part (`describeWsEndpoint`) drops the
query string, where credentials live, and whose detail part passes through
`redactSecrets`; and `redactSecrets` does redact the credential-bearing
material: a detail ending in a `token=`-style query parameter value has the
value replaced by `***`, and one ending in an `authorization:` header value
has the value replaced by `***` (the syntactic side conditions say the
secret run is non-empty and delimiter-free and that the prefix contains no
other redaction trigger). -/
theorem claim_C9_redaction :
    (∀ (url : String) (o : Oracle) (m : String),
      (connectEnv url o).2 = Except.error m → ∃ detail, m = connectFailMessage url detail) ∧
    (∀ (url : String) (u : URLM), parseURL url = some u →
      describeWsEndpoint url = u.scheme ++ "://" ++ u.host ++ u.pathname) ∧
    (∀ a secret : List Char,
      cleanBeforeTok a (tokLit ++ secret) = true →
      secret ≠ [] →
      secret.all (fun c => !stopChar c) = true →
      noAccTrig (a ++ (tokLit ++ stars)) = true →
      noAuthTrig (a ++ (tokLit ++ stars)) = true →
      redactSecrets (String.mk (a ++ (tokLit ++ secret))) = String.mk (a ++ (tokLit ++ stars))) ∧
    (∀ a wsp secret : List Char,
      noTokTrig (a ++ (authLit ++ (wsp ++ secret))) = true →
      noAccTrig (a ++ (authLit ++ (wsp ++ secret))) = true →
      cleanBeforeAuth a (authLit ++ (wsp ++ secret)) = true →
      wsp.all isWsCharJS = true →
      secret ≠ [] →
      secret.all (fun c => !isWsCharJS c) = true →
      redactSecrets (String.mk (a ++ (authLit ++ (wsp ++ secret)))) = String.mk (a ++ (authLit ++ (' ' :: stars)))) := by
  refine ⟨?_, ?_, ?_, ?_⟩
  · intro url o m hm
    unfold connectEnv at hm
    cases hr : connectEnvInner url o with
    | mk ops r =>
      rw [hr] at hm
      cases r with
      | ok w => simp at hm
      | error d =>
        simp only [Except.error.injEq] at hm
        exact ⟨d, hm.symm⟩
  · intro url u hp
    unfold describeWsEndpoint
    rw [hp]
  · intro a secret hclean hne hns hacc hauth
    have hdne : (a ++ (tokLit ++ secret)) ≠ [] := by
      simp [tokLit]
    have hsne : String.mk (a ++ (tokLit ++ secret)) ≠ "" := by
      intro hcontra
      exact hdne (congrArg String.data hcontra)
    unfold redactSecrets
    rw [if_neg hsne]
    show String.mk (redactAuth (redactAcc (redactTok (a ++ (tokLit ++ secret))))) = _
    rw [redactTok_split a secret hclean hne hns, redactAcc_id _ hacc, redactAuth_id _ hauth]
  · intro a wsp secret htok hacc hclean hwsp hne hns
    have hdne : (a ++ (authLit ++ (wsp ++ secret))) ≠ [] := by
      simp [authLit]
    have hsne : String.mk (a ++ (authLit ++ (wsp ++ secret))) ≠ "" := by
      intro hcontra
      exact hdne (congrArg String.data hcontra)
    unfold redactSecrets
    rw [if_neg hsne]
    show String.mk (redactAuth (redactAcc (redactTok (a ++ (authLit ++ (wsp ++ secret)))))) = _
    rw [redactTok_id _ htok, redactAcc_id _ hacc,
      redactAuth_split a wsp secret hclean hwsp hne hns]

/-- C9 witness: a failure detail ending in `token=abc123` surfaces with the
secret replaced by `***`, and one ending in `Authorization: Bearer` has the
credential replaced by `***`. -/
theorem claim_C9_redaction_witness :
    redactSecrets (String.mk ("HTTP 401 at /ws?".data ++ (tokLit ++ "abc123".data))) = String.mk ("HTTP 401 at /ws?".data ++ (tokLit ++ stars)) ∧
    redactSecrets (String.mk ("HTTP 401 got ".data ++ (authLit ++ (" ".data ++ "Bearer".data)))) = String.mk ("HTTP 401 got ".data ++ (authLit ++ (' ' :: stars))) :=
  ⟨claim_C9_redaction.2.2.1 "HTTP 401 at /ws?".data "abc123".data (by decide) (by decide) (by decide) (by decide) (by decide),
   claim_C9_redaction.2.2.2 "HTTP 401 got ".data " ".data "Bearer".data (by decide) (by decide) (by decide) (by decide) (by decide) (by decide)⟩
